import Mathlib

/-!
Verification of the colorimetric core of `metodos_server.py`
(class `ColorAnalyzer` and its hex/HSL helpers).

Modelling conventions:
* Python floats are modelled as exact rationals (`ℚ`); every numeric literal
  of the source (`0.083`, `0.2`, `-1.5`, …) is carried over as the exact
  rational it denotes.  The program computes in IEEE-754 doubles, rounding
  every operation, so the two arithmetics can part ways in the lowest output
  bit: a statement below fixes concrete output bytes only at inputs where
  the double-precision evaluation agrees with the exact-rational one, and
  the remaining statements (structure, membership, list length, dyadic
  score arithmetic) are insensitive to that rounding.
* Python dictionaries with `.get(key, default)` are modelled as association
  lists with a defaulting lookup (`lookupD`).
* Fallible Python code (code whose execution can raise) is modelled with
  `Option`: `none` is a raised exception.
* Python's `float % 1.0` is modelled by `fmod1`, `int(...)` truncation
  toward zero by `pytrunc`.
* `list(set(...))` is modelled by `List.dedup`; the claims proved below are
  insensitive to the (unspecified) ordering produced by a Python set.
-/

/-- Association-list lookup with a default value: model of Python
`dict.get(key, default)` for the constant dictionaries of the source. -/
def lookupD {α β : Type} [DecidableEq α] (k : α) (d : β) : List (α × β) → β
  | [] => d
  | (k', v) :: rest => if k = k' then v else lookupD k d rest

/-- Python `x % 1.0` for a real `x`: the fractional part, always in `[0, 1)`. -/
def fmod1 (x : ℚ) : ℚ := x - Int.floor x

/-- Python `int(x)` on a real: truncation toward zero. -/
def pytrunc (q : ℚ) : ℤ := if q < 0 then Int.ceil q else Int.floor q

/-!  Model of the Python standard library `colorsys` module (only the two
functions the source calls: `rgb_to_hls` and `hls_to_rgb`, with the helper
`_v`, here named `vFun`).  The float constants `ONE_THIRD`, `ONE_SIXTH`,
`TWO_THIRD` are the exact rationals `1/3`, `1/6`, `2/3`; the program's
float products can fall just below a truncation boundary where the exact
value sits on it, so concrete channel bytes computed through `vFun` are
asserted only where both evaluations agree. -/

/-- `colorsys.rgb_to_hls`: convert an RGB triple (components in `[0,1]`)
to an HLS triple. -/
def rgb_to_hls (r g b : ℚ) : ℚ × ℚ × ℚ :=
  let maxc := max r (max g b)
  let minc := min r (min g b)
  let sumc := maxc + minc
  let rangec := maxc - minc
  let l := sumc / 2
  if minc = maxc then (0, l, 0)
  else
    let s := if l ≤ 1/2 then rangec / sumc else rangec / (2 - sumc)
    let rc := (maxc - r) / rangec
    let gc := (maxc - g) / rangec
    let bc := (maxc - b) / rangec
    let h0 := if r = maxc then bc - gc else if g = maxc then 2 + rc - bc else 4 + gc - rc
    (fmod1 (h0 / 6), l, s)

/-- `colorsys._v`: interpolation helper for `hls_to_rgb`. -/
def vFun (m1 m2 hue : ℚ) : ℚ :=
  let hue2 := fmod1 hue
  if hue2 < 1/6 then m1 + (m2 - m1) * hue2 * 6
  else if hue2 < 1/2 then m2
  else if hue2 < 2/3 then m1 + (m2 - m1) * (2/3 - hue2) * 6
  else m1

/-- `colorsys.hls_to_rgb`: convert an HLS triple back to RGB. -/
def hls_to_rgb (h l s : ℚ) : ℚ × ℚ × ℚ :=
  if s = 0 then (l, l, l)
  else
    let m2 := if l ≤ 1/2 then l * (1 + s) else l + s - l * s
    let m1 := 2 * l - m2
    (vFun m1 m2 (h + 1/3), vFun m1 m2 h, vFun m1 m2 (h - 1/3))

/-!  Hex-string parsing and printing, from the local helpers `hex_to_hsl`
and `hsl_to_hex` of `ColorAnalyzer.generate_harmony_palette`
(`metodos_server.py` lines 249-258). -/

/-- Value of one hexadecimal digit character (`0-9`, `a-f`, `A-F`). -/
def hexVal (c : Char) : Option ℕ :=
  if 48 ≤ c.toNat ∧ c.toNat ≤ 57 then some (c.toNat - 48)
  else if 97 ≤ c.toNat ∧ c.toNat ≤ 102 then some (c.toNat - 87)
  else if 65 ≤ c.toNat ∧ c.toNat ≤ 70 then some (c.toNat - 55)
  else none

/-- Accumulating base-16 parse of a digit string. -/
def parseHexAux : List Char → ℕ → Option ℕ
  | [], acc => some acc
  | c :: rest, acc =>
    match hexVal c with
    | none => none
    | some d => parseHexAux rest (acc * 16 + d)

/-- Model of Python `int(s, 16)` as used on the 2-character slices of a hex
color, restricted to strings of hexadecimal digit characters, on which it is
exact: such a nonempty slice parses to its value, and `none` is Python's
raised `ValueError` on an empty one.  Python's `int` additionally accepts
surrounding whitespace and a leading sign (and, on longer strings,
underscores and a base marker), inputs on which this model fails instead;
no statement below exercises such inputs, so every property proved about
`hex_to_hsl` concerns only inputs where model and program agree. -/
def parseHexComp (cs : List Char) : Option ℕ :=
  if cs.isEmpty then none else parseHexAux cs 0

/-- Python `str.lstrip('#')`: removes every leading `'#'` character. -/
def lstripHash : List Char → List Char
  | [] => []
  | c :: rest => if c = '#' then lstripHash rest else c :: rest

/-- `hex_to_hsl` (`metodos_server.py` lines 249-253): strip leading `#`,
read the character slices `[0:2]`, `[2:4]`, `[4:6]` as base-16 integers,
scale by 255 and convert with `colorsys.rgb_to_hls`.  There is no length
check: characters past index 6 are ignored, and a 5-character input still
succeeds because Python slicing is silently short and `int` accepts a
single digit. -/
def hex_to_hsl (str : String) : Option (ℚ × ℚ × ℚ) :=
  match parseHexComp (((lstripHash str.data).drop 0).take 2),
      parseHexComp (((lstripHash str.data).drop 2).take 2),
      parseHexComp (((lstripHash str.data).drop 4).take 2) with
  | some rn, some gn, some bn =>
      some (rgb_to_hls ((rn : ℚ) / 255) ((gn : ℚ) / 255) ((bn : ℚ) / 255))
  | _, _, _ => none

/-- Lowercase hexadecimal digit character for a value `< 16`. -/
def toHexChar (n : ℕ) : Char := if n < 10 then Char.ofNat (48 + n) else Char.ofNat (87 + n)

/-- Python `'%02x' % n` for `0 ≤ n < 256`: two lowercase hex digits.  All
values formatted by the source lie in `[0, 255]` (they are `int(x*255)` for
`x ∈ [0,1]`); values outside that range are reduced mod 256 here, a case no
call site reaches. -/
def hexByte (n : ℕ) : String := String.mk [toHexChar (n / 16 % 16), toHexChar (n % 16)]

/-- `hsl_to_hex` (`metodos_server.py` lines 255-258): convert with
`colorsys.hls_to_rgb`, truncate each channel times 255 to an integer and
format as `#rrggbb` in lowercase.  Computed here in exact rationals; the
program's double rounding can land a channel one unit lower (for instance
`254.999…` truncating to `254`), so equations naming output strings appear
below only at inputs where the float and rational bytes coincide. -/
def hsl_to_hex (h l s : ℚ) : String :=
  "#" ++ hexByte (pytrunc ((hls_to_rgb h l s).1 * 255)).toNat
    ++ hexByte (pytrunc ((hls_to_rgb h l s).2.1 * 255)).toNat
    ++ hexByte (pytrunc ((hls_to_rgb h l s).2.2 * 255)).toNat

/-!  `ColorAnalyzer.analyze_undertone` (`metodos_server.py` lines 120-167). -/

/-- Result of the undertone analysis.  The source also formats an `analysis`
display string from `score` and `undertone`; that presentation field carries
no additional data and is omitted. -/
structure UndertoneResult where
  undertone : String
  score : ℚ
  confidence : ℚ
deriving DecidableEq

/-- Vein-color score table (40% weight, applied via the `* 2` factor). -/
def vein_scores : List (String × ℚ) :=
  [("azul", -2), ("azul_verdoso", -1), ("purpura", -1),
   ("verde", 2), ("verde_oliva", 2), ("indefinido", 0)]

/-- Jewelry-preference score table. -/
def jewelry_scores : List (String × ℚ) := [("plata", -3/2), ("oro", 3/2), ("ambos", 0)]

/-- Sun-reaction score table. -/
def sun_scores : List (String × ℚ) :=
  [("se_quema", -1), ("broncea_despacio", -1/2), ("broncea_facil", 1)]

/-- Natural-lip-color score table. -/
def lip_scores : List (String × ℚ) := [("rosado", -1/2), ("coral", 0), ("durazno", 1/2)]

/-- `ColorAnalyzer.analyze_undertone`: weighted sum of the four table
lookups (each unknown key contributing 0), then thresholding at `-1`/`+1`. -/
def analyze_undertone (vein_color jewelry_preference sun_reaction
    natural_lip_color : String) : UndertoneResult :=
  let score : ℚ := 0 + lookupD vein_color 0 vein_scores * 2
      + lookupD jewelry_preference 0 jewelry_scores
      + lookupD sun_reaction 0 sun_scores
      + lookupD natural_lip_color 0 lip_scores
  let undertone := if score ≤ -1 then "frio" else if score ≥ 1 then "calido" else "neutro"
  { undertone := undertone, score := score, confidence := min (|score| * 20) 100 }

/-!  `ColorAnalyzer.determine_season` (`metodos_server.py` lines 169-235). -/

/-- The key set of the `ColorAnalyzer.SEASONS` dictionary
(`metodos_server.py` lines 45-118): the eight season identifiers.  The
per-season metadata records (display name, best/avoid color lists, …) are
constant data not consulted by any property proved here. -/
def seasonKeys : List String :=
  ["primavera_calida", "primavera_clara", "verano_suave", "verano_frio",
   "otono_suave", "otono_profundo", "invierno_profundo", "invierno_brillante"]

/-- The 27-entry `season_matrix` decision table. -/
def season_matrix : List ((String × String × String) × String) :=
  [(("clara", "calido", "bajo"), "primavera_clara"),
   (("clara", "calido", "medio"), "primavera_calida"),
   (("clara", "calido", "alto"), "primavera_calida"),
   (("clara", "frio", "bajo"), "verano_suave"),
   (("clara", "frio", "medio"), "verano_frio"),
   (("clara", "frio", "alto"), "invierno_brillante"),
   (("clara", "neutro", "bajo"), "verano_suave"),
   (("clara", "neutro", "medio"), "verano_frio"),
   (("clara", "neutro", "alto"), "invierno_brillante"),
   (("media", "calido", "bajo"), "otono_suave"),
   (("media", "calido", "medio"), "primavera_calida"),
   (("media", "calido", "alto"), "otono_profundo"),
   (("media", "frio", "bajo"), "verano_suave"),
   (("media", "frio", "medio"), "verano_frio"),
   (("media", "frio", "alto"), "invierno_profundo"),
   (("media", "neutro", "bajo"), "otono_suave"),
   (("media", "neutro", "medio"), "verano_frio"),
   (("media", "neutro", "alto"), "invierno_profundo"),
   (("oscura", "calido", "bajo"), "otono_suave"),
   (("oscura", "calido", "medio"), "otono_profundo"),
   (("oscura", "calido", "alto"), "otono_profundo"),
   (("oscura", "frio", "bajo"), "invierno_profundo"),
   (("oscura", "frio", "medio"), "invierno_profundo"),
   (("oscura", "frio", "alto"), "invierno_profundo"),
   (("oscura", "neutro", "bajo"), "invierno_profundo"),
   (("oscura", "neutro", "medio"), "invierno_profundo"),
   (("oscura", "neutro", "alto"), "invierno_profundo")]

/-- The `contrast_adjustments` override table, keyed by
`(hair_color, eye_color)`. -/
def contrast_adjustments : List ((String × String) × String) :=
  [(("negro", "azul"), "alto"),
   (("negro", "verde"), "alto"),
   (("rubio", "cafe"), "medio"),
   (("rubio", "azul"), "bajo"),
   (("castano", "verde"), "medio"),
   (("pelirrojo", "verde"), "alto")]

/-- Result of season determination.  The source also returns the season's
`SEASONS` metadata record and an interpolated `reasoning` display string,
both determined by `season`; they are omitted as pure presentation. -/
structure SeasonResult where
  season : String
  confidence : ℚ
deriving DecidableEq

/-- `ColorAnalyzer.determine_season`: override the contrast level from the
`(hair, eye)` table when a pair matches, then index the 27-entry decision
table, defaulting to `"verano_suave"`. -/
def determine_season (skin_tone undertone eye_color hair_color
    contrast_level : String) : SeasonResult :=
  let adjusted_contrast := lookupD (hair_color, eye_color) contrast_level contrast_adjustments
  let season := lookupD (skin_tone, undertone, adjusted_contrast) "verano_suave" season_matrix
  { season := season, confidence := 85 }

/-!  `ColorAnalyzer.generate_harmony_palette` (`metodos_server.py`
lines 237-305). -/

/-- The `harmonies` list built by the scheme dispatch of
`generate_harmony_palette` (lines 269-293), given the seed color string and
its already-computed HLS coordinates `h`, `l`, `s`. -/
def harmoniesStep (base_hex : String) (h l s : ℚ) (harmony_type : String) : List String :=
  if harmony_type = "complementary" then
    [base_hex, hsl_to_hex (fmod1 (h + 1/2)) l s]
  else if harmony_type = "analogous" then
    [base_hex, hsl_to_hex (fmod1 (h + 83/1000)) l s, hsl_to_hex (fmod1 (h - 83/1000)) l s]
  else if harmony_type = "triadic" then
    [base_hex, hsl_to_hex (fmod1 (h + 333/1000)) l s, hsl_to_hex (fmod1 (h + 667/1000)) l s]
  else if harmony_type = "split_complementary" then
    [base_hex, hsl_to_hex (fmod1 (fmod1 (h + 1/2) + 83/1000)) l s,
      hsl_to_hex (fmod1 (fmod1 (h + 1/2) - 83/1000)) l s]
  else []

/-- One turn of the lightness-variation loop (lines 297-303): re-parse the
color and emit it together with a lightened (`l + 0.2`, clamped to `≤ 1`)
and a darkened (`l - 0.2`, clamped to `≥ 0`) version. -/
def variationsOf (color : String) : Option (List String) :=
  match hex_to_hsl color with
  | none => none
  | some (h, l, s) =>
    some [color, hsl_to_hex h (min (l + 1/5) 1) s, hsl_to_hex h (max (l - 1/5) 0) s]

/-- The full `variations` list accumulated by the loop, in source order;
a parse failure inside the loop (impossible for colors produced by the
scheme step, whose elements all re-parse) would propagate as an
exception. -/
def variationsAll : List String → Option (List String)
  | [] => some []
  | color :: rest =>
    match variationsOf color, variationsAll rest with
    | some vs, some more => some (vs ++ more)
    | _, _ => none

/-- `ColorAnalyzer.generate_harmony_palette`: empty input short-circuits to
an empty list; otherwise the head color is parsed (a parse failure is a
raised exception, i.e. `none`), the scheme list is built, expanded with
lightness variations and de-duplicated via `list(set(...))`. -/
def generate_harmony_palette (base_colors : List String)
    (harmony_type : String) : Option (List String) :=
  match base_colors with
  | [] => some []
  | base_hex :: _ =>
    match hex_to_hsl base_hex with
    | none => none
    | some (h, l, s) =>
      (variationsAll (harmoniesStep base_hex h l s harmony_type)).map List.dedup

/-!  Generic lemmas about the defaulting association-list lookup. -/

/-- A key absent from the table looks up to the default. -/
theorem lookupD_of_not_mem {α β : Type} [DecidableEq α] (k : α) (d : β)
    (l : List (α × β)) (h : k ∉ l.map Prod.fst) : lookupD k d l = d := by
  induction l with
  | nil => rfl
  | cons p rest ih =>
    simp only [List.map_cons, List.mem_cons] at h
    push_neg at h
    simp only [lookupD, if_neg h.1]
    exact ih h.2

/-- A lookup result is the default or one of the table values. -/
theorem lookupD_mem {α β : Type} [DecidableEq α] (k : α) (d : β)
    (l : List (α × β)) : lookupD k d l = d ∨ lookupD k d l ∈ l.map Prod.snd := by
  induction l with
  | nil => exact Or.inl rfl
  | cons p rest ih =>
    simp only [lookupD]
    by_cases hk : k = p.1
    · simp [hk]
    · rcases ih with h | h
      · simp [hk, h]
      · simp [hk, h]

/-- With duplicate-free keys, a table entry determines its lookup. -/
theorem lookupD_of_mem {α β : Type} [DecidableEq α] {k : α} {v : β} (d : β)
    {l : List (α × β)} (hnd : (l.map Prod.fst).Nodup) (h : (k, v) ∈ l) :
    lookupD k d l = v := by
  induction l with
  | nil => cases h
  | cons p rest ih =>
    simp only [List.map_cons, List.nodup_cons] at hnd
    rcases List.mem_cons.mp h with h1 | h1
    · rw [← h1]; simp [lookupD]
    · have hk : k ≠ p.1 := by
        intro hkp
        exact hnd.1 (hkp ▸ (List.mem_map.mpr ⟨(k, v), h1, rfl⟩))
      simp only [lookupD, if_neg hk]
      exact ih hnd.2 h1

/-- The three-way threshold used by `analyze_undertone`, characterized by
inclusive-boundary inequalities. -/
theorem classifyThreshold_iff (q : ℚ) :
    ((if q ≤ -1 then "frio" else if q ≥ 1 then "calido" else "neutro") = "frio" ↔ q ≤ -1)
    ∧ ((if q ≤ -1 then "frio" else if q ≥ 1 then "calido" else "neutro") = "calido" ↔ q ≥ 1)
    ∧ ((if q ≤ -1 then "frio" else if q ≥ 1 then "calido" else "neutro") = "neutro"
        ↔ (-1 < q ∧ q < 1)) := by
  split_ifs with h1 h2
  · refine ⟨⟨fun _ => h1, fun _ => rfl⟩, ?_, ?_⟩
    · exact ⟨fun hc => absurd hc (by decide), fun hs => absurd (hs.trans h1) (by norm_num)⟩
    · exact ⟨fun hn => absurd hn (by decide), fun hn => absurd h1 (not_le.mpr hn.1)⟩
  · refine ⟨?_, ⟨fun _ => h2, fun _ => rfl⟩, ?_⟩
    · exact ⟨fun hc => absurd hc (by decide), fun hs => absurd hs h1⟩
    · exact ⟨fun hn => absurd hn (by decide), fun hn => absurd h2 (not_le.mpr hn.2)⟩
  · refine ⟨?_, ?_, ?_⟩
    · exact ⟨fun hc => absurd hc (by decide), fun hs => absurd hs h1⟩
    · exact ⟨fun hc => absurd hc (by decide), fun hs => absurd hs h2⟩
    · exact ⟨fun _ => ⟨not_le.mp h1, not_le.mp h2⟩, fun _ => rfl⟩

/-- C1: the raw undertone score is the sum of the four weighted table terms
(vein color doubled after lookup; unknown values contribute 0 with no
failure), and the category is `frio` exactly when the total is `≤ -1`
(boundary included), `calido` exactly when it is `≥ +1` (boundary included),
and `neutro` exactly in between (in particular at score 0). -/
theorem C1_undertone_score_and_classification :
    ∀ v j su li : String,
      (analyze_undertone v j su li).score =
        (if v = "azul" then (-2 : ℚ) else if v = "azul_verdoso" then -1
          else if v = "purpura" then -1 else if v = "verde" then 2
          else if v = "verde_oliva" then 2 else if v = "indefinido" then 0 else 0) * 2
        + (if j = "plata" then (-3/2 : ℚ) else if j = "oro" then 3/2
            else if j = "ambos" then 0 else 0)
        + (if su = "se_quema" then (-1 : ℚ) else if su = "broncea_despacio" then -1/2
            else if su = "broncea_facil" then 1 else 0)
        + (if li = "rosado" then (-1/2 : ℚ) else if li = "coral" then 0
            else if li = "durazno" then 1/2 else 0)
      ∧ ((analyze_undertone v j su li).undertone = "frio"
          ↔ (analyze_undertone v j su li).score ≤ -1)
      ∧ ((analyze_undertone v j su li).undertone = "calido"
          ↔ (analyze_undertone v j su li).score ≥ 1)
      ∧ ((analyze_undertone v j su li).undertone = "neutro"
          ↔ (-1 < (analyze_undertone v j su li).score
              ∧ (analyze_undertone v j su li).score < 1)) := by
  intro v j su li
  refine ⟨?_, ?_⟩
  · simp only [analyze_undertone, lookupD, vein_scores, jewelry_scores, sun_scores, lip_scores,
      zero_add]
  · exact classifyThreshold_iff _

/-- C2: `determine_season` always yields one of the eight season identifiers;
every triple present in the 27-entry table looks up to its table entry, and
every triple absent from the table looks up to the default
`"verano_suave"`.  The `season` field of the result is exactly this lookup
applied to the (contrast-adjusted) triple. -/
theorem C2_season_table_total :
    (∀ st u e h c : String, (determine_season st u e h c).season ∈ seasonKeys)
    ∧ (∀ p ∈ season_matrix, lookupD p.1 "verano_suave" season_matrix = p.2)
    ∧ (∀ st u c : String, (st, u, c) ∉ season_matrix.map Prod.fst →
        lookupD (st, u, c) "verano_suave" season_matrix = "verano_suave") := by
  refine ⟨?_, ?_, ?_⟩
  · intro st u e h c
    have hsub : ∀ x ∈ ("verano_suave" :: season_matrix.map Prod.snd), x ∈ seasonKeys := by
      decide
    refine hsub _ ?_
    rcases lookupD_mem (st, u, lookupD (h, e) c contrast_adjustments)
        "verano_suave" season_matrix with hd | hm
    · exact hd ▸ List.mem_cons_self _ _
    · exact List.mem_cons_of_mem _ hm
  · intro p hp
    have hnd : (season_matrix.map Prod.fst).Nodup := by decide
    exact lookupD_of_mem "verano_suave" hnd (by rcases p with ⟨k, v⟩; exact hp)
  · intro st u c h
    exact lookupD_of_not_mem _ _ _ h

/-- C2 witness: the two example rows of the table, plus a triple outside the
table defaulting to `"verano_suave"`. -/
theorem C2_season_table_total_witness :
    lookupD (("clara", "calido", "bajo") : String × String × String)
        "verano_suave" season_matrix = "primavera_clara"
    ∧ lookupD (("oscura", "frio", "alto") : String × String × String)
        "verano_suave" season_matrix = "invierno_profundo"
    ∧ lookupD (("clara", "calido", "muy_alto") : String × String × String)
        "verano_suave" season_matrix = "verano_suave" :=
  ⟨C2_season_table_total.2.1 (("clara", "calido", "bajo"), "primavera_clara") (by decide),
   C2_season_table_total.2.1 (("oscura", "frio", "alto"), "invierno_profundo") (by decide),
   C2_season_table_total.2.2 "clara" "calido" "muy_alto" (by decide)⟩

/-- C7: the contrast override table replaces the supplied contrast level
exactly on its six `(hair, eye)` keys and passes the supplied level through
on every other pair; `determine_season` consults it through `lookupD`; and
on the end-to-end profile (green veins, gold jewelry, easy tan, peach lips,
light skin, blue eyes, blonde hair, low contrast) the undertone score is
`+7`, the undertone `"calido"`, and the season `"primavera_clara"`. -/
theorem C7_contrast_override_end_to_end :
    (∀ st u e h c : String,
      (determine_season st u e h c).season
        = lookupD (st, u, lookupD (h, e) c contrast_adjustments) "verano_suave" season_matrix)
    ∧ (∀ c : String,
        lookupD (("negro", "azul") : String × String) c contrast_adjustments = "alto"
        ∧ lookupD (("negro", "verde") : String × String) c contrast_adjustments = "alto"
        ∧ lookupD (("rubio", "cafe") : String × String) c contrast_adjustments = "medio"
        ∧ lookupD (("rubio", "azul") : String × String) c contrast_adjustments = "bajo"
        ∧ lookupD (("castano", "verde") : String × String) c contrast_adjustments = "medio"
        ∧ lookupD (("pelirrojo", "verde") : String × String) c contrast_adjustments = "alto")
    ∧ (∀ hair eye c : String, (hair, eye) ∉ contrast_adjustments.map Prod.fst →
        lookupD (hair, eye) c contrast_adjustments = c)
    ∧ (analyze_undertone "verde" "oro" "broncea_facil" "durazno").score = 7
    ∧ (analyze_undertone "verde" "oro" "broncea_facil" "durazno").undertone = "calido"
    ∧ (determine_season "clara" "calido" "azul" "rubio" "bajo").season = "primavera_clara" := by
  refine ⟨fun st u e h c => rfl, ?_, ?_, ?_, ?_, ?_⟩
  · intro c
    refine ⟨?_, ?_, ?_, ?_, ?_, ?_⟩ <;>
      simp [lookupD, contrast_adjustments]
  · intro hair eye c h
    exact lookupD_of_not_mem _ _ _ h
  · norm_num +decide [analyze_undertone, lookupD, vein_scores, jewelry_scores, sun_scores,
      lip_scores]
  · simp only [analyze_undertone]
    norm_num +decide [lookupD, vein_scores, jewelry_scores, sun_scores, lip_scores]
  · rfl

/-- C7 witness: a pair outside the override table passes the supplied
contrast level through unchanged. -/
theorem C7_contrast_override_end_to_end_witness :
    lookupD (("verde", "azul") : String × String) "bajo" contrast_adjustments = "bajo" :=
  C7_contrast_override_end_to_end.2.2.1 "verde" "azul" "bajo" (by decide)

/-!  Concrete-evaluation helpers for the hex/HSL pipeline. -/

/-- Evaluation of `hex_to_hsl` once its three slices have parsed. -/
theorem hex_to_hsl_eval (str : String) (rn gn bn : ℕ)
    (h1 : parseHexComp (((lstripHash str.data).drop 0).take 2) = some rn)
    (h2 : parseHexComp (((lstripHash str.data).drop 2).take 2) = some gn)
    (h3 : parseHexComp (((lstripHash str.data).drop 4).take 2) = some bn) :
    hex_to_hsl str = some (rgb_to_hls ((rn : ℚ) / 255) ((gn : ℚ) / 255) ((bn : ℚ) / 255)) := by
  unfold hex_to_hsl
  rw [h1, h2, h3]

/-- `"#FF0000"` parses to pure red, hue 0, lightness 1/2, saturation 1. -/
theorem hex_to_hsl_red : hex_to_hsl "#FF0000" = some (0, 1/2, 1) := by
  rw [hex_to_hsl_eval "#FF0000" 255 0 0 (by decide) (by decide) (by decide)]
  norm_num [rgb_to_hls, fmod1, max_def, min_def]

/-- The four scheme branches of `harmoniesStep`, plus the fall-through. -/
theorem harmoniesStep_eval (base : String) (h l s : ℚ) :
    harmoniesStep base h l s "complementary" = [base, hsl_to_hex (fmod1 (h + 1/2)) l s]
    ∧ harmoniesStep base h l s "analogous"
      = [base, hsl_to_hex (fmod1 (h + 83/1000)) l s, hsl_to_hex (fmod1 (h - 83/1000)) l s]
    ∧ harmoniesStep base h l s "triadic"
      = [base, hsl_to_hex (fmod1 (h + 333/1000)) l s, hsl_to_hex (fmod1 (h + 667/1000)) l s]
    ∧ harmoniesStep base h l s "split_complementary"
      = [base, hsl_to_hex (fmod1 (fmod1 (h + 1/2) + 83/1000)) l s,
          hsl_to_hex (fmod1 (fmod1 (h + 1/2) - 83/1000)) l s] := by
  refine ⟨?_, ?_, ?_, ?_⟩
  · unfold harmoniesStep; rw [if_pos rfl]
  · unfold harmoniesStep; rw [if_neg (by decide), if_pos rfl]
  · unfold harmoniesStep; rw [if_neg (by decide), if_neg (by decide), if_pos rfl]
  · unfold harmoniesStep; rw [if_neg (by decide), if_neg (by decide), if_neg (by decide),
      if_pos rfl]

/-- A scheme string outside the four recognized ones yields no harmonies. -/
theorem harmoniesStep_unknown (base : String) (h l s : ℚ) (ht : String)
    (hm : ht ∉ ["complementary", "analogous", "triadic", "split_complementary"]) :
    harmoniesStep base h l s ht = [] := by
  simp only [List.mem_cons, List.mem_singleton, not_or] at hm
  unfold harmoniesStep
  rw [if_neg hm.1, if_neg hm.2.1, if_neg hm.2.2.1, if_neg hm.2.2.2.1]

/-- C5 counterexample: called on an empty color list, the function does not
fail — it succeeds and returns the empty palette (`return []` at line 261 of
`metodos_server.py`), contradicting the claimed `EmptyInput` error. -/
theorem C5_counterexample_empty_succeeds :
    generate_harmony_palette [] "complementary" = some []
    ∧ generate_harmony_palette [] "complementary" ≠ none :=
  ⟨rfl, fun h => Option.noConfusion h⟩

/-- C5 (amended): on an empty `base_colors` list the function raises no
error and returns an empty list, for every scheme value. -/
theorem C5_amended_empty_returns_empty :
    ∀ harmony_type : String, generate_harmony_palette [] harmony_type = some [] :=
  fun _ => rfl

/-- C9 counterexample: a non-empty input with an unknown scheme does not
fail — the scheme dispatch leaves `harmonies` empty and the function
returns an empty list. -/
theorem C9_counterexample_unknown_scheme_succeeds :
    generate_harmony_palette ["#FF0000"] "bogus" = some []
    ∧ generate_harmony_palette ["#FF0000"] "bogus" ≠ none := by
  have hsome : generate_harmony_palette ["#FF0000"] "bogus" = some [] := by
    show (match hex_to_hsl "#FF0000" with
      | none => none
      | some (h, l, s) =>
        (variationsAll (harmoniesStep "#FF0000" h l s "bogus")).map List.dedup) = some []
    rw [hex_to_hsl_red]
    show (variationsAll (harmoniesStep "#FF0000" 0 (1/2) 1 "bogus")).map List.dedup = some []
    rw [harmoniesStep_unknown "#FF0000" 0 (1/2) 1 "bogus" (by decide)]
    rfl
  exact ⟨hsome, fun h => Option.noConfusion (hsome ▸ h)⟩

/-- C9 (amended): for a non-empty color list whose head parses and a scheme
outside the four recognized values, the function raises no error and
returns an empty list (the `UnknownScheme` failure of the claim does not
exist in the code). -/
theorem C9_amended_unknown_scheme_returns_empty :
    ∀ (c : String) (rest : List String) (harmony_type : String) (h l s : ℚ),
      hex_to_hsl c = some (h, l, s) →
      harmony_type ∉ ["complementary", "analogous", "triadic", "split_complementary"] →
      generate_harmony_palette (c :: rest) harmony_type = some [] := by
  intro c rest ht h l s hparse hm
  show (match hex_to_hsl c with
    | none => none
    | some (h, l, s) =>
      (variationsAll (harmoniesStep c h l s ht)).map List.dedup) = some []
  rw [hparse]
  show (variationsAll (harmoniesStep c h l s ht)).map List.dedup = some []
  rw [harmoniesStep_unknown c h l s ht hm]
  rfl

/-- C9 witness: the amended statement at `["#FF0000"]` with scheme
`"bogus"`. -/
theorem C9_amended_unknown_scheme_returns_empty_witness :
    generate_harmony_palette ["#FF0000"] "bogus2" = some [] :=
  C9_amended_unknown_scheme_returns_empty "#FF0000" [] "bogus2" 0 (1/2) 1
    hex_to_hsl_red (by decide)

/-- Evaluation of `hsl_to_hex` once the RGB triple and the truncated
channel bytes are known. -/
theorem hsl_to_hex_eval (h l s r g b : ℚ) (rn gn bn : ℕ)
    (hrgb : hls_to_rgb h l s = (r, g, b))
    (hr : (pytrunc (r * 255)).toNat = rn)
    (hg : (pytrunc (g * 255)).toNat = gn)
    (hb : (pytrunc (b * 255)).toNat = bn) :
    hsl_to_hex h l s = "#" ++ hexByte rn ++ hexByte gn ++ hexByte bn := by
  unfold hsl_to_hex
  rw [hrgb]
  dsimp only
  rw [hr, hg, hb]

/-- Hue `0.083` (the source literal) at red's lightness and saturation. -/
theorem color_red_offset_p083 : hsl_to_hex (83/1000) (1/2) 1 = "#ff7e00" := by
  have h1 : hls_to_rgb (83/1000) (1/2) 1 = (1, 249/500, 0) := by
    norm_num [hls_to_rgb, vFun, fmod1]
  rw [hsl_to_hex_eval (83/1000) (1/2) 1 1 (249/500) 0 255 126 0 h1
    (by norm_num [pytrunc] <;> decide) (by norm_num [pytrunc] <;> decide)
    (by norm_num [pytrunc] <;> decide)]
  decide

/-- Hue `-0.083` wrapped to `0.917`, at red's lightness and saturation. -/
theorem color_red_offset_m083 : hsl_to_hex (917/1000) (1/2) 1 = "#ff007e" := by
  have h1 : hls_to_rgb (917/1000) (1/2) 1 = (1, 0, 249/500) := by
    norm_num [hls_to_rgb, vFun, fmod1]
  rw [hsl_to_hex_eval (917/1000) (1/2) 1 1 0 (249/500) 255 0 126 h1
    (by norm_num [pytrunc] <;> decide) (by norm_num [pytrunc] <;> decide)
    (by norm_num [pytrunc] <;> decide)]
  decide

/-- Hue `0.0833` (the offset the claim states) at red's lightness and
saturation: one green unit away from the color the code produces. -/
theorem color_red_offset_p0833 : hsl_to_hex (833/10000) (1/2) 1 = "#ff7f00" := by
  have h1 : hls_to_rgb (833/10000) (1/2) 1 = (1, 2499/5000, 0) := by
    norm_num [hls_to_rgb, vFun, fmod1]
  rw [hsl_to_hex_eval (833/10000) (1/2) 1 1 (2499/5000) 0 255 127 0 h1
    (by norm_num [pytrunc] <;> decide) (by norm_num [pytrunc] <;> decide)
    (by norm_num [pytrunc] <;> decide)]
  decide

/-- C3 counterexample: the analogous hue offset of the code is the literal
`0.083`, not `0.0833`.  For the seed `"#FF0000"` (hue 0, lightness 1/2,
saturation 1) the scheme step produces `"#ff7e00"` and `"#ff007e"`, while a
color at the claimed offset `+0.0833` would be `"#ff7f00"` — which is not
among the produced scheme colors. -/
theorem C3_counterexample_hue_offset :
    hex_to_hsl "#FF0000" = some (0, 1/2, 1)
    ∧ harmoniesStep "#FF0000" 0 (1/2) 1 "analogous" = ["#FF0000", "#ff7e00", "#ff007e"]
    ∧ hsl_to_hex (fmod1 (0 + 833/10000)) (1/2) 1 = "#ff7f00"
    ∧ hsl_to_hex (fmod1 (0 + 833/10000)) (1/2) 1
        ∉ harmoniesStep "#FF0000" 0 (1/2) 1 "analogous" := by
  have e1 : fmod1 ((0 : ℚ) + 83/1000) = 83/1000 := by norm_num [fmod1]
  have e2 : fmod1 ((0 : ℚ) - 83/1000) = 917/1000 := by norm_num [fmod1]
  have e3 : fmod1 ((0 : ℚ) + 833/10000) = 833/10000 := by norm_num [fmod1]
  have hstep : harmoniesStep "#FF0000" 0 (1/2) 1 "analogous"
      = ["#FF0000", "#ff7e00", "#ff007e"] := by
    rw [(harmoniesStep_eval "#FF0000" 0 (1/2) 1).2.1, e1, e2,
      color_red_offset_p083, color_red_offset_m083]
  refine ⟨hex_to_hsl_red, hstep, ?_, ?_⟩
  · rw [e3, color_red_offset_p0833]
  · rw [e3, color_red_offset_p0833, hstep]
    decide

/-- C3 (amended): `generate_harmony_palette` uses only the first base color
as the seed; given the seed's HLS coordinates, the scheme colors sit at hue
offsets `+0.5` (complementary), `±0.083` (analogous; the source literal,
about 29.9°, not `0.0833`), `+0.333`/`+0.667` (triadic), and complement
`±0.083` (split-complementary), all taken modulo 1 with the seed's
lightness and saturation held fixed. -/
theorem C3_amended_scheme_offsets :
    (∀ (c : String) (r1 r2 : List String) (harmony_type : String),
      generate_harmony_palette (c :: r1) harmony_type
        = generate_harmony_palette (c :: r2) harmony_type)
    ∧ (∀ (base : String) (h l s : ℚ),
        harmoniesStep base h l s "complementary" = [base, hsl_to_hex (fmod1 (h + 1/2)) l s]
        ∧ harmoniesStep base h l s "analogous"
          = [base, hsl_to_hex (fmod1 (h + 83/1000)) l s, hsl_to_hex (fmod1 (h - 83/1000)) l s]
        ∧ harmoniesStep base h l s "triadic"
          = [base, hsl_to_hex (fmod1 (h + 333/1000)) l s, hsl_to_hex (fmod1 (h + 667/1000)) l s]
        ∧ harmoniesStep base h l s "split_complementary"
          = [base, hsl_to_hex (fmod1 (fmod1 (h + 1/2) + 83/1000)) l s,
              hsl_to_hex (fmod1 (fmod1 (h + 1/2) - 83/1000)) l s])
    ∧ (∀ (c : String) (rest : List String) (harmony_type : String) (h l s : ℚ),
        hex_to_hsl c = some (h, l, s) →
        generate_harmony_palette (c :: rest) harmony_type
          = (variationsAll (harmoniesStep c h l s harmony_type)).map List.dedup) := by
  refine ⟨fun c r1 r2 ht => rfl, harmoniesStep_eval, ?_⟩
  intro c rest ht h l s hp
  show (match hex_to_hsl c with
    | none => none
    | some (h, l, s) =>
      (variationsAll (harmoniesStep c h l s ht)).map List.dedup)
    = (variationsAll (harmoniesStep c h l s ht)).map List.dedup
  rw [hp]

/-- C3 witness: the amended seed/scheme decomposition at `"#FF0000"` with
the complementary scheme. -/
theorem C3_amended_scheme_offsets_witness :
    generate_harmony_palette ["#FF0000"] "complementary"
      = (variationsAll (harmoniesStep "#FF0000" 0 (1/2) 1 "complementary")).map List.dedup :=
  C3_amended_scheme_offsets.2.2 "#FF0000" [] "complementary" 0 (1/2) 1 hex_to_hsl_red

/-!  Parsing the strings that `hsl_to_hex` produces. -/

/-- Each hex digit character formats and re-parses to its value. -/
theorem hexVal_toHexChar : ∀ n < 16, hexVal (toHexChar n) = some n := by decide

/-- Hex digit characters are never `'#'`. -/
theorem toHexChar_ne_hash : ∀ n < 16, toHexChar n ≠ '#' := by decide

/-- A two-hex-digit component re-parses to its value. -/
theorem parseHexComp_pair (x y : ℕ) (hx : x < 16) (hy : y < 16) :
    parseHexComp [toHexChar x, toHexChar y] = some (16 * x + y) := by
  have h1 := hexVal_toHexChar x hx
  have h2 := hexVal_toHexChar y hy
  simp [parseHexComp, parseHexAux, h1, h2]
  omega

/-- Any string of the shape `"#" ++ hexByte a ++ hexByte b ++ hexByte c`
parses, recovering each byte modulo 256. -/
theorem hex_to_hsl_hexBytes (a b c : ℕ) :
    hex_to_hsl ("#" ++ hexByte a ++ hexByte b ++ hexByte c)
      = some (rgb_to_hls (((16 * (a / 16 % 16) + a % 16 : ℕ) : ℚ) / 255)
          (((16 * (b / 16 % 16) + b % 16 : ℕ) : ℚ) / 255)
          (((16 * (c / 16 % 16) + c % 16 : ℕ) : ℚ) / 255)) := by
  have hd : lstripHash ("#" ++ hexByte a ++ hexByte b ++ hexByte c).data
      = [toHexChar (a / 16 % 16), toHexChar (a % 16), toHexChar (b / 16 % 16),
         toHexChar (b % 16), toHexChar (c / 16 % 16), toHexChar (c % 16)] := by
    show lstripHash ('#' :: [toHexChar (a / 16 % 16), toHexChar (a % 16),
        toHexChar (b / 16 % 16), toHexChar (b % 16), toHexChar (c / 16 % 16),
        toHexChar (c % 16)]) = _
    unfold lstripHash
    rw [if_pos rfl]
    unfold lstripHash
    rw [if_neg (toHexChar_ne_hash _ (Nat.mod_lt _ (by norm_num)))]
  refine hex_to_hsl_eval _ _ _ _ ?_ ?_ ?_ <;> rw [hd] <;>
    exact parseHexComp_pair _ _ (Nat.mod_lt _ (by norm_num)) (Nat.mod_lt _ (by norm_num))

/-- Every string printed by `hsl_to_hex` re-parses successfully: the
lightness-variation loop can never fail on the scheme step's output. -/
theorem hex_to_hsl_isSome_hsl_to_hex (h l s : ℚ) :
    (hex_to_hsl (hsl_to_hex h l s)).isSome := by
  unfold hsl_to_hex
  rw [hex_to_hsl_hexBytes]
  rfl

/-!  Membership structure of the lightness-variation loop. -/

/-- Evaluation of one loop turn once the color has parsed. -/
theorem variationsOf_eval (color : String) (h l s : ℚ)
    (hp : hex_to_hsl color = some (h, l, s)) :
    variationsOf color
      = some [color, hsl_to_hex h (min (l + 1/5) 1) s, hsl_to_hex h (max (l - 1/5) 0) s] := by
  unfold variationsOf
  rw [hp]

/-- If every color of the list parses, the whole loop succeeds. -/
theorem variationsAll_isSome (cs : List String)
    (hall : ∀ color ∈ cs, (hex_to_hsl color).isSome) :
    ∃ vs, variationsAll cs = some vs := by
  induction cs with
  | nil => exact ⟨[], rfl⟩
  | cons c rest ih =>
    obtain ⟨hls, hp⟩ := Option.isSome_iff_exists.mp (hall c (List.mem_cons_self c rest))
    obtain ⟨h, l, s⟩ := hls
    obtain ⟨more, hmore⟩ := ih fun color hc => hall color (List.mem_cons_of_mem _ hc)
    refine ⟨[c, hsl_to_hex h (min (l + 1/5) 1) s, hsl_to_hex h (max (l - 1/5) 0) s] ++ more, ?_⟩
    show (match variationsOf c, variationsAll rest with
      | some vs, some more => some (vs ++ more)
      | _, _ => none) = _
    rw [variationsOf_eval c h l s hp, hmore]

/-- Every color of the scheme list contributes its three variants to the
loop's output. -/
theorem variationsAll_mem_forward (cs : List String) (vs : List String)
    (hvs : variationsAll cs = some vs) :
    ∀ color ∈ cs, ∀ h l s : ℚ, hex_to_hsl color = some (h, l, s) →
      color ∈ vs ∧ hsl_to_hex h (min (l + 1/5) 1) s ∈ vs
        ∧ hsl_to_hex h (max (l - 1/5) 0) s ∈ vs := by
  induction cs generalizing vs with
  | nil => intro color hc; cases hc
  | cons c rest ih =>
    intro color hc h l s hp
    have hvs' : (match variationsOf c, variationsAll rest with
        | some vs, some more => some (vs ++ more)
        | _, _ => none) = some vs := hvs
    rcases hv : variationsOf c with _ | vsc
    · rw [hv] at hvs'; cases hvs'
    rcases hr : variationsAll rest with _ | more
    · rw [hv, hr] at hvs'; cases hvs'
    rw [hv, hr] at hvs'
    have hcat : vsc ++ more = vs := Option.some.inj hvs'
    rcases List.mem_cons.mp hc with rfl | hmem
    · rw [variationsOf_eval color h l s hp] at hv
      have hvsc : vsc = [color, hsl_to_hex h (min (l + 1/5) 1) s,
          hsl_to_hex h (max (l - 1/5) 0) s] := (Option.some.inj hv).symm
      subst hvsc
      subst hcat
      refine ⟨?_, ?_, ?_⟩ <;> simp
    · have := ih more hr color hmem h l s hp
      subst hcat
      exact ⟨List.mem_append_right _ this.1, List.mem_append_right _ this.2.1,
        List.mem_append_right _ this.2.2⟩

/-- Conversely, everything the loop outputs is one of the three variants of
some scheme color. -/
theorem variationsAll_mem_backward (cs : List String) (vs : List String)
    (hvs : variationsAll cs = some vs) :
    ∀ x ∈ vs, ∃ color ∈ cs, ∃ h l s : ℚ, hex_to_hsl color = some (h, l, s)
      ∧ (x = color ∨ x = hsl_to_hex h (min (l + 1/5) 1) s
          ∨ x = hsl_to_hex h (max (l - 1/5) 0) s) := by
  induction cs generalizing vs with
  | nil =>
    intro x hx
    cases hvs
    cases hx
  | cons c rest ih =>
    intro x hx
    have hvs' : (match variationsOf c, variationsAll rest with
        | some vs, some more => some (vs ++ more)
        | _, _ => none) = some vs := hvs
    rcases hv : variationsOf c with _ | vsc
    · rw [hv] at hvs'; cases hvs'
    rcases hr : variationsAll rest with _ | more
    · rw [hv, hr] at hvs'; cases hvs'
    rw [hv, hr] at hvs'
    have hcat : vsc ++ more = vs := Option.some.inj hvs'
    subst hcat
    have hv' : (match hex_to_hsl c with
        | none => none
        | some (h, l, s) =>
          some [c, hsl_to_hex h (min (l + 1/5) 1) s, hsl_to_hex h (max (l - 1/5) 0) s])
        = some vsc := hv
    rcases hp : hex_to_hsl c with _ | hls
    · rw [hp] at hv'; cases hv'
    obtain ⟨h, l, s⟩ := hls
    rw [hp] at hv'
    have hvsc : vsc = [c, hsl_to_hex h (min (l + 1/5) 1) s,
        hsl_to_hex h (max (l - 1/5) 0) s] := (Option.some.inj hv').symm
    rcases List.mem_append.mp hx with hx1 | hx2
    · subst hvsc
      refine ⟨c, List.mem_cons_self c rest, h, l, s, hp, ?_⟩
      rcases hx1 with _ | ⟨_, _ | ⟨_, _ | ⟨_, h4⟩⟩⟩
      · exact Or.inl rfl
      · exact Or.inr (Or.inl rfl)
      · exact Or.inr (Or.inr rfl)
      · cases h4
    · obtain ⟨color, hcm, h', l', s', hp', hor⟩ := ih more hr x hx2
      exact ⟨color, List.mem_cons_of_mem _ hcm, h', l', s', hp', hor⟩

/-- C10: for every non-empty base-color list whose first element parses and
every recognized scheme, the palette returned by
`generate_harmony_palette` contains the first base color itself — the exact
input string, unmodified. -/
theorem C10_output_contains_seed :
    ∀ (c : String) (rest : List String) (harmony_type : String) (h l s : ℚ),
      hex_to_hsl c = some (h, l, s) →
      harmony_type ∈ ["complementary", "analogous", "triadic", "split_complementary"] →
      ∃ out, generate_harmony_palette (c :: rest) harmony_type = some out ∧ c ∈ out := by
  intro c rest ht h l s hp hm
  have hps : (hex_to_hsl c).isSome := by rw [hp]; rfl
  have hkeys := harmoniesStep_eval c h l s
  simp only [List.mem_cons, List.mem_singleton, List.not_mem_nil, or_false] at hm
  have hall : ∀ color ∈ harmoniesStep c h l s ht, (hex_to_hsl color).isSome := by
    rcases hm with rfl | rfl | rfl | rfl
    · rw [hkeys.1]; intro color hc
      fin_cases hc
      · exact hps
      · exact hex_to_hsl_isSome_hsl_to_hex _ _ _
    · rw [hkeys.2.1]; intro color hc
      fin_cases hc
      · exact hps
      · exact hex_to_hsl_isSome_hsl_to_hex _ _ _
      · exact hex_to_hsl_isSome_hsl_to_hex _ _ _
    · rw [hkeys.2.2.1]; intro color hc
      fin_cases hc
      · exact hps
      · exact hex_to_hsl_isSome_hsl_to_hex _ _ _
      · exact hex_to_hsl_isSome_hsl_to_hex _ _ _
    · rw [hkeys.2.2.2]; intro color hc
      fin_cases hc
      · exact hps
      · exact hex_to_hsl_isSome_hsl_to_hex _ _ _
      · exact hex_to_hsl_isSome_hsl_to_hex _ _ _
  have hcmem : c ∈ harmoniesStep c h l s ht := by
    rcases hm with rfl | rfl | rfl | rfl
    · rw [hkeys.1]; exact List.mem_cons_self _ _
    · rw [hkeys.2.1]; exact List.mem_cons_self _ _
    · rw [hkeys.2.2.1]; exact List.mem_cons_self _ _
    · rw [hkeys.2.2.2]; exact List.mem_cons_self _ _
  obtain ⟨vs, hvs⟩ := variationsAll_isSome _ hall
  have hfw := variationsAll_mem_forward _ vs hvs c hcmem h l s hp
  refine ⟨vs.dedup, ?_, List.mem_dedup.mpr hfw.1⟩
  show (match hex_to_hsl c with
    | none => none
    | some (h, l, s) => (variationsAll (harmoniesStep c h l s ht)).map List.dedup)
    = some vs.dedup
  rw [hp]
  show (variationsAll (harmoniesStep c h l s ht)).map List.dedup = some vs.dedup
  rw [hvs]
  rfl

/-- C10 witness: the seed `"#FF0000"` is in its own complementary
palette. -/
theorem C10_output_contains_seed_witness :
    ∃ out, generate_harmony_palette ["#FF0000"] "complementary" = some out
      ∧ "#FF0000" ∈ out :=
  C10_output_contains_seed "#FF0000" [] "complementary" 0 (1/2) 1 hex_to_hsl_red
    (by decide)

/-- C4: given the parsed seed, the final palette is the de-duplication of
the variation list, which contains, for every color of the scheme step,
exactly its three variants — the color itself, the `+0.2`-lightened version
clamped to 1, and the `-0.2`-darkened version clamped to 0, at unchanged
hue and saturation — and nothing else; concretely,
`generate_harmony_palette ["#FF0000"] complementary` builds 6 colors before
de-duplication, among them the color at hue `(hue(#FF0000) + 0.5) mod 1`
with red's lightness and saturation.  (The parse of `"#FF0000"` is exact in
doubles — 0, 1/2 and 1 are dyadic — and the length and membership facts do
not depend on the bytes the variants round to.) -/
theorem C4_lightness_variants :
    (∀ (c : String) (rest : List String) (harmony_type : String) (h l s : ℚ),
      hex_to_hsl c = some (h, l, s) →
      ∀ vs, variationsAll (harmoniesStep c h l s harmony_type) = some vs →
        generate_harmony_palette (c :: rest) harmony_type = some vs.dedup
        ∧ (∀ x, x ∈ vs.dedup ↔ x ∈ vs)
        ∧ (∀ color ∈ harmoniesStep c h l s harmony_type, ∀ hc lc sc : ℚ,
            hex_to_hsl color = some (hc, lc, sc) →
            color ∈ vs ∧ hsl_to_hex hc (min (lc + 1/5) 1) sc ∈ vs
              ∧ hsl_to_hex hc (max (lc - 1/5) 0) sc ∈ vs)
        ∧ (∀ x ∈ vs, ∃ color ∈ harmoniesStep c h l s harmony_type, ∃ hc lc sc : ℚ,
            hex_to_hsl color = some (hc, lc, sc)
            ∧ (x = color ∨ x = hsl_to_hex hc (min (lc + 1/5) 1) sc
                ∨ x = hsl_to_hex hc (max (lc - 1/5) 0) sc)))
    ∧ (∃ vs, variationsAll (harmoniesStep "#FF0000" 0 (1/2) 1 "complementary") = some vs
        ∧ vs.length = 6
        ∧ hsl_to_hex (fmod1 ((0 : ℚ) + 1/2)) (1/2) 1 ∈ vs) := by
  refine ⟨?_, ?_⟩
  · intro c rest ht h l s hp vs hvs
    refine ⟨?_, fun x => List.mem_dedup, ?_, ?_⟩
    · show (match hex_to_hsl c with
        | none => none
        | some (h, l, s) => (variationsAll (harmoniesStep c h l s ht)).map List.dedup)
        = some vs.dedup
      rw [hp]
      show (variationsAll (harmoniesStep c h l s ht)).map List.dedup = some vs.dedup
      rw [hvs]
      rfl
    · intro color hcm hc lc sc hpc
      exact variationsAll_mem_forward _ vs hvs color hcm hc lc sc hpc
    · exact variationsAll_mem_backward _ vs hvs
  · obtain ⟨hls2, hp2⟩ := Option.isSome_iff_exists.mp
      (hex_to_hsl_isSome_hsl_to_hex (fmod1 ((0 : ℚ) + 1/2)) (1/2) 1)
    obtain ⟨h2, l2, s2⟩ := hls2
    refine ⟨["#FF0000", hsl_to_hex 0 (min (1/2 + 1/5) 1) 1,
        hsl_to_hex 0 (max (1/2 - 1/5) 0) 1]
      ++ ([hsl_to_hex (fmod1 ((0 : ℚ) + 1/2)) (1/2) 1,
        hsl_to_hex h2 (min (l2 + 1/5) 1) s2, hsl_to_hex h2 (max (l2 - 1/5) 0) s2]
        ++ []), ?_, ?_, ?_⟩
    · rw [(harmoniesStep_eval "#FF0000" 0 (1/2) 1).1]
      show (match variationsOf "#FF0000",
          variationsAll [hsl_to_hex (fmod1 ((0 : ℚ) + 1/2)) (1/2) 1] with
        | some vs, some more => some (vs ++ more)
        | _, _ => none) = _
      rw [variationsOf_eval "#FF0000" 0 (1/2) 1 hex_to_hsl_red,
        show variationsAll [hsl_to_hex (fmod1 ((0 : ℚ) + 1/2)) (1/2) 1]
            = some ([hsl_to_hex (fmod1 ((0 : ℚ) + 1/2)) (1/2) 1,
              hsl_to_hex h2 (min (l2 + 1/5) 1) s2,
              hsl_to_hex h2 (max (l2 - 1/5) 0) s2] ++ []) from by
          show (match variationsOf (hsl_to_hex (fmod1 ((0 : ℚ) + 1/2)) (1/2) 1),
              variationsAll ([] : List String) with
            | some vs, some more => some (vs ++ more)
            | _, _ => none) = _
          rw [variationsOf_eval _ h2 l2 s2 hp2]
          rfl]
    · simp
    · simp

/-- C4 witness: the complementary palette of `"#FF0000"` exists and
contains the complement-hue color. -/
theorem C4_lightness_variants_witness :
    ∃ out, generate_harmony_palette ["#FF0000"] "complementary" = some out
      ∧ hsl_to_hex (fmod1 ((0 : ℚ) + 1/2)) (1/2) 1 ∈ out := by
  obtain ⟨vs, hvs, hlen, hmem⟩ := C4_lightness_variants.2
  exact ⟨vs.dedup,
    (C4_lightness_variants.1 "#FF0000" [] "complementary" 0 (1/2) 1
      hex_to_hsl_red vs hvs).1,
    ((C4_lightness_variants.1 "#FF0000" [] "complementary" 0 (1/2) 1
      hex_to_hsl_red vs hvs).2.1 _).mpr hmem⟩

/-!  Claim C8: which inputs make `hex_to_hsl` fail. -/

/-- The accumulating parse succeeds exactly when every character is a hex
digit. -/
theorem parseHexAux_isSome (cs : List Char) :
    ∀ acc : ℕ, (parseHexAux cs acc).isSome ↔ ∀ ch ∈ cs, (hexVal ch).isSome := by
  induction cs with
  | nil => intro acc; simp [parseHexAux]
  | cons c rest ih =>
    intro acc
    show (match hexVal c with
      | none => none
      | some d => parseHexAux rest (acc * 16 + d)).isSome ↔ _
    rcases hv : hexVal c with _ | d
    · simp [hv]
    · simp only [Option.isSome_some, List.mem_cons]
      constructor
      · intro hsome ch hch
        rcases hch with rfl | hch
        · rw [hv]; rfl
        · exact ((ih _).mp hsome) ch hch
      · intro hall
        exact (ih _).mpr fun ch hch => hall ch (Or.inr hch)

/-- `parseHexComp` succeeds exactly on nonempty all-hex-digit slices. -/
theorem parseHexComp_isSome (cs : List Char) :
    (parseHexComp cs).isSome ↔ cs ≠ [] ∧ ∀ ch ∈ cs, (hexVal ch).isSome := by
  unfold parseHexComp
  rcases cs with _ | ⟨c, rest⟩
  · simp
  · simp only [List.isEmpty_cons, Bool.false_eq_true, if_false, ne_eq, reduceCtorEq,
      not_false_eq_true, true_and]
    exact parseHexAux_isSome _ 0

/-- C8 counterexample: `"#11223344"` is not 6 hex digits after stripping the
`#` (it is 8), yet `hex_to_hsl` succeeds on it, reading only the first six
digits — the function performs no length validation. -/
theorem C8_counterexample_overlong_succeeds :
    hex_to_hsl "#11223344" = some (7/12, 2/15, 1/2)
    ∧ (lstripHash ("#11223344" : String).data).length = 8 := by
  constructor
  · rw [hex_to_hsl_eval "#11223344" 17 34 51 (by decide) (by decide) (by decide)]
    norm_num [rgb_to_hls, fmod1, max_def, min_def]
  · decide

/-- A parse success of all three slices is a parse success of the whole
color. -/
theorem hex_to_hsl_isSome_of_slices (str : String)
    (h1 : (parseHexComp (((lstripHash str.data).drop 0).take 2)).isSome)
    (h2 : (parseHexComp (((lstripHash str.data).drop 2).take 2)).isSome)
    (h3 : (parseHexComp (((lstripHash str.data).drop 4).take 2)).isSome) :
    (hex_to_hsl str).isSome := by
  obtain ⟨rn, e1⟩ := Option.isSome_iff_exists.mp h1
  obtain ⟨gn, e2⟩ := Option.isSome_iff_exists.mp h2
  obtain ⟨bn, e3⟩ := Option.isSome_iff_exists.mp h3
  unfold hex_to_hsl
  rw [e1, e2, e3]
  rfl

/-- C8 (amended): `hex_to_hsl` (a total, effect-free function) succeeds on
every string that is exactly 6 hex digits after stripping leading `'#'`
characters — and more generally on every string of at least 5 hex digits,
reading only the first six — so the claimed failure condition is wrong:
there is no length validation.  Genuinely short inputs still fail, as a
plain `ValueError` raised by `int`, not a dedicated `InvalidColorFormat`
error: on `"#1234"` the `[4:6]` slice is empty. -/
theorem C8_amended_no_length_check :
    (∀ str : String, (∀ ch ∈ lstripHash str.data, (hexVal ch).isSome) →
      (lstripHash str.data).length = 6 → (hex_to_hsl str).isSome)
    ∧ (∀ str : String, (∀ ch ∈ lstripHash str.data, (hexVal ch).isSome) →
      5 ≤ (lstripHash str.data).length → (hex_to_hsl str).isSome)
    ∧ hex_to_hsl "#1234" = none := by
  have hgen : ∀ str : String, (∀ ch ∈ lstripHash str.data, (hexVal ch).isSome) →
      5 ≤ (lstripHash str.data).length → (hex_to_hsl str).isSome := by
    intro str hdig hlen
    have hslice : ∀ k : ℕ, k + 1 ≤ (lstripHash str.data).length →
        (parseHexComp (((lstripHash str.data).drop k).take 2)).isSome := by
      intro k hk
      refine (parseHexComp_isSome _).mpr ⟨?_, fun ch hch => hdig ch ?_⟩
      · refine List.ne_nil_of_length_pos ?_
        rw [List.length_take, List.length_drop]
        omega
      · exact List.mem_of_mem_drop (List.mem_of_mem_take hch)
    exact hex_to_hsl_isSome_of_slices str (hslice 0 (by omega)) (hslice 2 (by omega))
      (hslice 4 (by omega))
  refine ⟨fun str hdig hlen => hgen str hdig (by omega), hgen, ?_⟩
  rfl

/-- C8 witness: the well-formed input `"#336699"` parses. -/
theorem C8_amended_no_length_check_witness : (hex_to_hsl "#336699").isSome :=
  C8_amended_no_length_check.1 "#336699" (by decide) (by decide)
